import Mathlib

/-!
Verification of the dingtalk sink (`sinks/dingtalk/dingtalk.go` of
stormgbs/kube-eventer) against its natural-language specification.

The Go source is shallowly embedded below:
* pure helpers (`getLevel`, `getValues`, `createMsgFromEvent`) become Lean
  functions with the same names;
* `fmt.Sprintf` with `%s` verbs is modelled by `goSprintf` (the only verb
  occurring in the formats this file reaches is `%s`);
* `json.Marshal` of the message struct is modelled by `marshalDingTalkMsg`
  using Go's `encoding/json` string escaping (`goJsonString`);
* the outcome of `http.Post` is an explicit parameter (`PostResult`): per the
  `net/http` contract for the default client, the response is non-nil exactly
  when the returned error is nil;
* Go runtime panics (nil dereference, index out of range) are explicit
  constructors of the result types;
* a Go nil slice is `Option.none` where the source distinguishes nil from a
  non-nil slice (the `!= nil` tests on `Namespaces`/`Kinds`), and an ordinary
  `List` elsewhere.
-/

namespace DingTalk

/-- Constants from the Go source (`const`/`var` block). `WARNING`/`NORMAL` are
Go `int`s, modelled as `Int`. -/
def DINGTALK_SINK : String := "DingTalkSink"

def WARNING : Int := 2

def NORMAL : Int := 1

def DEFAULT_MSG_TYPE : String := "text"

def CONTENT_TYPE_JSON : String := "application/json"

def LABE_TEMPLATE : String := "%s\n"

def MSG_TEMPLATE : String :=
  "Level:%s \nKind:%s \nNamespace:%s \nName:%s \nReason:%s \nTimestamp:%s \nMessage:%s"

/-- `DingTalkText` struct. -/
structure DingTalkText where
  Content : String
deriving DecidableEq

/-- `DingTalkMsg` struct (json tags: `msgtype`, `text`). -/
structure DingTalkMsg where
  MsgType : String
  Text : DingTalkText
deriving DecidableEq

/-- The `InvolvedObject` of a `v1.Event`; only its `Kind` field is read. -/
structure ObjectReference where
  Kind : String
deriving DecidableEq

/-- The fields of `v1.Event` read by the sink. `LastTimestamp` models the
string returned by `event.LastTimestamp.String()`. -/
structure Event where
  «Type» : String
  Namespace : String
  Name : String
  Reason : String
  LastTimestamp : String
  Message : String
  InvolvedObject : ObjectReference
deriving DecidableEq

/-- `DingTalkSink` struct. `Namespaces`/`Kinds` are Go slices compared against
nil in `Ding`, so a nil slice is `none` and a non-nil slice is `some`.
`Level` is a Go `int`. -/
structure DingTalkSink where
  Endpoint : String
  Namespaces : Option (List String)
  Kinds : Option (List String)
  Token : String
  Level : Int
  Labels : List String
deriving DecidableEq

/-- `getLevel`: the Go `switch` on the event type string
(`v1.EventTypeWarning = "Warning"`, `v1.EventTypeNormal = "Normal"`),
accumulating into `score` which starts at 0. -/
def getLevel (level : String) : Int :=
  let score : Int := 0
  if level = "Warning" then score + 2
  else if level = "Normal" then score + 1
  else score

/-- `isEventLevelDangerous`: `score >= d.Level` returns true, else false. -/
def isEventLevelDangerous (d : DingTalkSink) (level : String) : Bool :=
  let score := getLevel level
  if score ≥ d.Level then true else false

/-- The allow-list loop appearing twice in `Ding` (once for `d.Namespaces`
against `event.Namespace`, once for `d.Kinds` against
`event.InvolvedObject.Kind`): when the slice is not nil, `skip` starts true
and becomes false on the first exactly-equal entry. Returns the final value
of `skip` (false when the slice is nil, i.e. the event is not skipped). -/
def allowSkip (allow : Option (List String)) (value : String) : Bool :=
  match allow with
  | none => false
  | some entries => !(entries.any (fun entry => entry == value))

/-- Characters Go's `fmt` emits for an `%s` verb with no argument left. -/
def missingChars : List Char := "%!s(MISSING)".data

/-- Characters Go's `fmt` appends for unconsumed string arguments. -/
def extraChars (args : List String) : List Char :=
  ("%!(EXTRA " ++ String.intercalate ", " (args.map (fun a => "string=" ++ a)) ++ ")").data

/-- Core of `fmt.Sprintf` for string arguments: scans the format characters,
substituting each `%s` verb with the next argument. Only the `%s` verb is
modelled (no other verb occurs in the formats built by this source file from
verb-free inputs); missing/extra arguments follow Go's behaviour. -/
def goFmt : List Char → List String → List Char
  | [], args => if args.isEmpty then [] else extraChars args
  | [c], args => c :: goFmt [] args
  | c1 :: c2 :: rest, args =>
    if c1 = '%' ∧ c2 = 's' then
      match args with
      | arg :: args2 => arg.data ++ goFmt rest args2
      | [] => missingChars ++ goFmt rest []
    else c1 :: goFmt (c2 :: rest) args

/-- `fmt.Sprintf` on string arguments (see `goFmt`). -/
def goSprintf (format : String) (args : List String) : String :=
  String.mk (goFmt format.data args)

/-- `createMsgFromEvent`: fixed `text` message type; each label is prepended
to the template as a `LABE_TEMPLATE` line; the final template is formatted
with the seven event fields. (The Go `len(labels) > 0` guard around the loop
is the identity for an empty list.) The Go function always returns a non-nil
pointer, so the result is a plain value and the caller's `msg == nil` branch
is unreachable. -/
def createMsgFromEvent (labels : List String) (event : Event) : DingTalkMsg :=
  let template := labels.foldl
    (fun template label => goSprintf LABE_TEMPLATE [label] ++ template) MSG_TEMPLATE
  { MsgType := DEFAULT_MSG_TYPE,
    Text := { Content := goSprintf template [event.Type, event.InvolvedObject.Kind,
                event.Namespace, event.Name, event.Reason, event.LastTimestamp,
                event.Message] } }

/-- Lowercase hex digit, as used by Go's json encoder for `\u00xx` escapes. -/
def hexDigitChar (n : Nat) : Char := "0123456789abcdef".data.getD n '0'

/-- Go `encoding/json` escaping of one character (HTML escaping on, as it is
for `json.Marshal`): quote, backslash, newline, carriage return and tab get
short escapes; other control characters get `\u00xx`; `<`, `>`, `&` and
U+2028/U+2029 get `\uXXXX`; everything else is emitted as itself. -/
def goJsonEscapeChar (c : Char) : String :=
  if c = '"' then "\\\""
  else if c = '\\' then "\\\\"
  else if c = '\n' then "\\n"
  else if c = '\r' then "\\r"
  else if c = '\t' then "\\t"
  else if c = '<' then "\\u003c"
  else if c = '>' then "\\u003e"
  else if c = '&' then "\\u0026"
  else if c.toNat < 0x20 then
    "\\u00" ++ String.mk [hexDigitChar (c.toNat / 16), hexDigitChar (c.toNat % 16)]
  else if c = ' ' then "\\u2028"
  else if c = ' ' then "\\u2029"
  else String.singleton c

/-- Go `encoding/json` encoding of a string value. -/
def goJsonString (s : String) : String :=
  "\"" ++ String.join (s.data.map goJsonEscapeChar) ++ "\""

/-- `json.Marshal` of a `DingTalkMsg` (field tags `msgtype`, `text`,
`content`): always succeeds for this struct, producing the object bytes.
Literal braces are written with `\x7b`/`\x7d` escapes. -/
def marshalDingTalkMsg (m : DingTalkMsg) : String :=
  "\x7b\"msgtype\":" ++ goJsonString m.MsgType ++
    ",\"text\":\x7b\"content\":" ++ goJsonString m.Text.Content ++ "\x7d\x7d"

/-- The HTTP request issued by `http.Post` in `Ding`. -/
structure HttpRequest where
  url : String
  contentType : String
  body : String
deriving DecidableEq

/-- Outcome of the `http.Post` call, supplied by the environment. For the
default client, the response is non-nil with a nil error (`success`, carrying
the status code), or nil with a non-nil error (`failure`). -/
inductive PostResult where
  | success (statusCode : Nat)
  | failure (errMsg : String)
deriving DecidableEq

/-- What happens in `Ding` after the POST is issued. On `err != nil ||
resp.StatusCode != http.StatusOK` the source evaluates both `err.Error()` and
`resp.StatusCode` as arguments of `klog.Errorf`; one of the two receivers is
nil in every failure case, so the Go code panics with a nil dereference
instead of logging (`panicked`). Status 200 returns normally. -/
inductive PostOutcome where
  | returnedNormally
  | panicked
deriving DecidableEq

/-- Result of one `Ding` call: either an early return before any POST
(namespace or kind filter), or exactly one POST with its aftermath. -/
inductive DingResult where
  | skipped
  | posted (req : HttpRequest) (outcome : PostOutcome)
deriving DecidableEq

/-- `Ding`: namespace allow-list check, kind allow-list check, message
construction, marshalling, then a single `http.Post` to
`fmt.Sprintf("https://%s?access_token=%s", d.Endpoint, d.Token)` with
content type `CONTENT_TYPE_JSON`. The `msg == nil` and marshal-error
branches of the source are unreachable (see `createMsgFromEvent` and
`marshalDingTalkMsg`). -/
def ding (d : DingTalkSink) (event : Event) (post : PostResult) : DingResult :=
  if allowSkip d.Namespaces event.Namespace then .skipped
  else if allowSkip d.Kinds event.InvolvedObject.Kind then .skipped
  else
    let msg := createMsgFromEvent d.Labels event
    let req : HttpRequest :=
      { url := goSprintf "https://%s?access_token=%s" [d.Endpoint, d.Token],
        contentType := CONTENT_TYPE_JSON,
        body := marshalDingTalkMsg msg }
    match post with
    | .failure _ => .posted req .panicked
    | .success statusCode =>
      if statusCode ≠ 200 then .posted req .panicked
      else .posted req .returnedNormally

/-- True when the `Ding` call reached the `http.Post`. -/
def attemptsPost (r : DingResult) : Bool :=
  match r with
  | .posted _ _ => true
  | .skipped => false

/-- True when the `Ding` call ended in a runtime panic. -/
def resultPanicked (r : DingResult) : Bool :=
  match r with
  | .posted _ .panicked => true
  | _ => false

/-- Observable record of one iteration of the `ExportEvents` loop:
whether `Ding` was invoked (and its result), and whether the 50ms
`time.Sleep` ran. -/
structure EventTrace where
  dingResult : Option DingResult
  slept : Bool
deriving DecidableEq

/-- Body of the `ExportEvents` loop for one event: the severity gate
`isEventLevelDangerous(event.Type)`, then `Ding` and the 50ms sleep. -/
def processEvent (d : DingTalkSink) (event : Event) (post : PostResult) : EventTrace :=
  if isEventLevelDangerous d event.Type then
    { dingResult := some (ding d event post), slept := true }
  else
    { dingResult := none, slept := false }

/-- `ExportEvents`: iterate the batch in order. A panic inside `Ding`
propagates out of the loop immediately (no sleep for that event, no further
events processed), which the trace records as a final unslept entry. -/
def ExportEvents (d : DingTalkSink) (batch : List Event) (post : Event → PostResult) :
    List EventTrace :=
  match batch with
  | [] => []
  | event :: rest =>
    if isEventLevelDangerous d event.Type then
      let r := ding d event (post event)
      if resultPanicked r then [{ dingResult := some r, slept := false }]
      else { dingResult := some r, slept := true } :: ExportEvents d rest post
    else { dingResult := none, slept := false } :: ExportEvents d rest post

/-- True when the iteration attempted an outbound HTTP delivery. -/
def deliveryAttempted (t : EventTrace) : Bool :=
  match t.dingResult with
  | some r => attemptsPost r
  | none => false

/-- Number of 50ms sleeps performed while processing a batch. -/
def countSleeps (trace : List EventTrace) : Nat :=
  trace.countP (fun t => t.slept)

/-- Number of iterations that attempted an outbound HTTP delivery. -/
def countDeliveries (trace : List EventTrace) : Nat :=
  trace.countP (fun t => deliveryAttempted t)

/-- Result of `NewDingTalkSink`: the sink, the construction error, or a Go
runtime panic. -/
inductive ConstructResult where
  | ok (d : DingTalkSink)
  | err (msg : String)
  | panicked
deriving DecidableEq

/-- `strings.Split(s, ",")`: cut `s` at every comma (Go semantics for a
one-character separator and any `s`, including `""` ↦ `[""]`). -/
def splitCommaChars : List Char → List Char → List (List Char)
  | [], acc => [acc.reverse]
  | ',' :: rest, acc => acc.reverse :: splitCommaChars rest []
  | c :: rest, acc => splitCommaChars rest (c :: acc)

/-- `strings.Split(s, ",")` on strings. -/
def splitComma (s : String) : List String :=
  (splitCommaChars s.data []).map String.mk

/-- `getValues`: for a query-parameter value slice `o`, a present empty first
value yields a nil slice; otherwise the source evaluates `o[0]` — which, when
`o` is empty (parameter absent), is an index-out-of-range panic, modelled as
the outer `none`. A returned Go slice is the inner `Option` (`none` = nil). -/
def getValues (o : List String) : Option (Option (List String)) :=
  match o with
  | [] => none
  | v :: _ => if v.length = 0 then some none else some (some (splitComma v))

/-- `NewDingTalkSink`: `host`/`path` are `uri.Host`/`uri.Path` and `opts` is
`uri.Query()` (absent key ↦ empty slice). Defaults `Level` to `WARNING`;
requires `access_token`; optional `level` (via `getLevel`) and repeatable
`label`; then `getValues` on `namespaces` and on `kinds` (each a panic when
the parameter is absent). The Go guard `len(opts["label"]) >= 1` before
`d.Labels = opts["label"]` is the identity on the modelled list. -/
def NewDingTalkSink (host path : String) (opts : String → List String) : ConstructResult :=
  let endpoint := if host.length > 0 then host ++ path else ""
  match opts "access_token" with
  | [] => .err "you must provide dingtalk bot access_token"
  | token :: _ =>
    let level : Int :=
      match opts "level" with
      | [] => WARNING
      | l :: _ => getLevel l
    let labels := opts "label"
    match getValues (opts "namespaces") with
    | none => .panicked
    | some namespaces =>
      match getValues (opts "kinds") with
      | none => .panicked
      | some kinds =>
        .ok { Endpoint := endpoint, Namespaces := namespaces, Kinds := kinds,
              Token := token, Level := level, Labels := labels }

/-! ## General lemmas about the embedded helpers -/

/-- Two strings with the same character data are equal. -/
theorem string_eq_of_data_eq (s t : String) (h : s.data = t.data) : s = t :=
  congrArg String.mk h

/-- `goFmt` copies a character that is not `%` and keeps scanning. -/
theorem goFmt_cons_ne_percent (c : Char) (cs : List Char) (args : List String)
    (h : c ≠ '%') : goFmt (c :: cs) args = c :: goFmt cs args := by
  cases cs with
  | nil => rfl
  | cons c2 rest =>
    show (if c = '%' ∧ c2 = 's' then _ else c :: goFmt (c2 :: rest) args) = _
    rw [if_neg (fun hand => h hand.1)]

/-- `goFmt` copies a `%`-free prefix of the format verbatim. -/
theorem goFmt_append_no_percent (p rest : List Char) (args : List String)
    (h : ∀ c ∈ p, c ≠ '%') : goFmt (p ++ rest) args = p ++ goFmt rest args := by
  induction p with
  | nil => simp
  | cons c p ih =>
    simp only [List.cons_append]
    rw [goFmt_cons_ne_percent c (p ++ rest) args (h c (by simp)),
      ih (fun x hx => h x (by simp [hx]))]

/-- `goSprintf` copies a `%`-free prefix of the format verbatim. -/
theorem goSprintf_append_no_percent (p rest : String) (args : List String)
    (h : ∀ c ∈ p.data, c ≠ '%') :
    goSprintf (p ++ rest) args = p ++ goSprintf rest args := by
  show String.mk (goFmt (p ++ rest).data args) = p ++ String.mk (goFmt rest.data args)
  rw [String.data_append, goFmt_append_no_percent _ _ _ h]
  exact string_eq_of_data_eq _ _ (String.data_append p (String.mk (goFmt rest.data args)))

/-- Formatting the one-label template is plain concatenation of the label
and a newline. -/
theorem goSprintf_label (l : String) : goSprintf LABE_TEMPLATE [l] = l ++ "\n" := rfl

/-- The label lines of the rendered message, in reverse list order: the
spec-side description of what the prepend loop of `createMsgFromEvent`
produces in front of the base template. -/
def labelLines : List String → String
  | [] => ""
  | l :: ls => labelLines ls ++ (l ++ "\n")

/-- The prepend loop of `createMsgFromEvent` turns the label list into
`labelLines` in front of the initial template. -/
theorem foldl_prepend_labelLines (labels : List String) (T : String) :
    labels.foldl (fun template label => goSprintf LABE_TEMPLATE [label] ++ template) T =
      labelLines labels ++ T := by
  induction labels generalizing T with
  | nil => exact (String.empty_append T).symm
  | cons l ls ih =>
    show ls.foldl _ (goSprintf LABE_TEMPLATE [l] ++ T) = _
    rw [ih, goSprintf_label, labelLines, String.append_assoc (labelLines ls) (l ++ "\n") T]

/-- Label lines built from `%`-free labels are `%`-free. -/
theorem labelLines_no_percent (labels : List String)
    (h : ∀ l ∈ labels, '%' ∉ l.data) : '%' ∉ (labelLines labels).data := by
  induction labels with
  | nil => decide
  | cons l ls ih =>
    simp only [labelLines, String.data_append, List.mem_append]
    rintro (hc | hc | hc)
    · exact ih (fun x hx => h x (by simp [hx])) hc
    · exact h l (by simp) hc
    · simp at hc

/-- `getLevel` never returns a negative score. -/
theorem getLevel_nonneg (s : String) : 0 ≤ getLevel s := by
  simp only [getLevel]
  split_ifs <;> decide

/-! ## Claim C7 -/

/-- A concrete event used to exercise the renderer. -/
def renderEvent : Event :=
  { «Type» := "T", Namespace := "NS", Name := "N", Reason := "R",
    LastTimestamp := "TS", Message := "M", InvolvedObject := { Kind := "K" } }

/-- C7 (counterexample): with the label list `["%s"]` the rendered content is
not the label line followed by the base template - the `%s` inside the label
is re-interpreted as a format verb during the final formatting pass, shifting
every event field by one place - so the claim's "for every label list" fails. -/
theorem percentLabelBreaksPrependCounterexample :
    (createMsgFromEvent ["%s"] renderEvent).Text.Content ≠
      labelLines ["%s"] ++ (createMsgFromEvent [] renderEvent).Text.Content := by
  decide

/-- C7 (amended): for every event and every label list whose labels contain
no `%` character, the renderer prepends each label in list order as a line to
the front of the template, so the rendered content is the label lines in
reverse list order followed by the rendered seven-field base template. -/
theorem renderPrependsLabelLinesReversed (labels : List String) (event : Event)
    (h : ∀ l ∈ labels, '%' ∉ l.data) :
    (createMsgFromEvent labels event).Text.Content =
      labelLines labels ++ (createMsgFromEvent [] event).Text.Content := by
  show goSprintf (labels.foldl _ MSG_TEMPLATE) _ =
    labelLines labels ++ goSprintf (List.foldl _ MSG_TEMPLATE []) _
  rw [List.foldl_nil, foldl_prepend_labelLines labels MSG_TEMPLATE]
  exact goSprintf_append_no_percent (labelLines labels) MSG_TEMPLATE _
    (fun c hc hceq => labelLines_no_percent labels h (hceq ▸ hc))

/-- C7 (witness): for the labels `["cluster-1", "env-prod"]` the rendered
content begins with the line `env-prod`, then the line `cluster-1`, then the
base template. -/
theorem renderPrependsLabelLinesReversedWitness :
    (createMsgFromEvent ["cluster-1", "env-prod"] renderEvent).Text.Content =
      "env-prod\ncluster-1\n" ++ (createMsgFromEvent [] renderEvent).Text.Content := by
  have h := renderPrependsLabelLinesReversed ["cluster-1", "env-prod"] renderEvent (by decide)
  rw [h]
  rfl

/-! ## Claim C8 -/

/-- C8: the severity classifier `getLevel` is a pure total function on
strings returning 2 for `"Warning"`, 1 for `"Normal"` and 0 for every other
input string. -/
theorem getLevelClassification (s : String) :
    getLevel s = if s = "Warning" then 2 else if s = "Normal" then 1 else 0 := by
  simp [getLevel]

/-! ## Concrete fixtures shared by several claims -/

/-- A sink with no namespace/kind filters and the default `WARNING` level. -/
def sinkNoFilters : DingTalkSink :=
  { Endpoint := "oapi.dingtalk.com/robot/send", Namespaces := none, Kinds := none,
    Token := "tok123", Level := 2, Labels := [] }

/-- A Warning-type Pod event in namespace `default`. -/
def warningPodEvent : Event :=
  { «Type» := "Warning", Namespace := "default", Name := "pod-1", Reason := "Failed",
    LastTimestamp := "ts", Message := "m", InvolvedObject := { Kind := "Pod" } }

/-- `Ding` does not panic when the POST comes back with status 200. -/
theorem ding_success_not_panicked (d : DingTalkSink) (e : Event) :
    resultPanicked (ding d e (PostResult.success 200)) = false := by
  unfold ding
  split
  · rfl
  · split
    · rfl
    · rfl

/-- `Ding` reaches the POST exactly when the namespace and kind allow-list
checks both pass; the severity score plays no role inside `Ding`. -/
theorem attemptsPost_ding (d : DingTalkSink) (e : Event) (post : PostResult) :
    attemptsPost (ding d e post) =
      (!allowSkip d.Namespaces e.Namespace && !allowSkip d.Kinds e.InvolvedObject.Kind) := by
  unfold ding
  by_cases h1 : allowSkip d.Namespaces e.Namespace
  · simp [h1, attemptsPost]
  · by_cases h2 : allowSkip d.Kinds e.InvolvedObject.Kind
    · simp [h1, h2, attemptsPost]
    · cases post with
      | failure m => simp [h1, h2, attemptsPost]
      | success s =>
        by_cases hs : s = 200 <;> simp [h1, h2, hs, attemptsPost]

/-! ## Claim C1 -/

/-- C1: when the POST fails - transport error, or a response status other
than 200 (e.g. HTTP 500 with a nil transport error) - `Ding` does not log
and return normally: the `klog.Errorf` call dereferences the nil `err`
(resp. the nil `resp`), so the routine panics. Only status 200 returns
normally. -/
theorem dingDeliveryFailurePanics :
    resultPanicked (ding sinkNoFilters warningPodEvent (PostResult.success 500)) = true ∧
    resultPanicked (ding sinkNoFilters warningPodEvent (PostResult.failure "connection refused")) = true ∧
    resultPanicked (ding sinkNoFilters warningPodEvent (PostResult.success 200)) = false := by
  refine ⟨rfl, rfl, ?_⟩
  exact ding_success_not_panicked sinkNoFilters warningPodEvent

/-! ## Claim C2 -/

/-- Query options carrying only `access_token` - the shape of the construction
URI shown in the source's own usage comment. -/
def optsTokenOnly : String → List String :=
  fun key => if key = "access_token" then ["tok123"] else []

/-- Query options with no parameters at all. -/
def optsNone : String → List String := fun _ => []

/-- Query options with `access_token`, a non-empty `namespaces` list and an
empty `kinds` value. -/
def optsTokenAndLists : String → List String :=
  fun key =>
    if key = "access_token" then ["tok123"]
    else if key = "namespaces" then ["a,b"]
    else if key = "kinds" then [""]
    else []

/-- The sink that `optsTokenAndLists` ought to construct: comma-split
namespace allow-list, nil kind allow-list, default level. -/
def sinkCommaSplit : DingTalkSink :=
  { Endpoint := "oapi.dingtalk.com/robot/send", Namespaces := some ["a", "b"],
    Kinds := none, Token := "tok123", Level := 2, Labels := [] }

/-- C2: construction with `access_token` present but the `namespaces` (or
`kinds`) parameter absent does not succeed - `getValues` indexes `o[0]` on a
zero-length slice and panics. A missing `access_token` is the only error
return, and when `namespaces`/`kinds` are present, a non-empty value becomes
the comma-split allow-list and an empty value becomes nil. -/
theorem newDingTalkSinkPanicsOnAbsentListParams :
    NewDingTalkSink "oapi.dingtalk.com" "/robot/send" optsTokenOnly =
      ConstructResult.panicked ∧
    NewDingTalkSink "oapi.dingtalk.com" "/robot/send" optsNone =
      ConstructResult.err "you must provide dingtalk bot access_token" ∧
    NewDingTalkSink "oapi.dingtalk.com" "/robot/send" optsTokenAndLists =
      ConstructResult.ok sinkCommaSplit := by
  decide

/-! ## Claim C4 -/

/-- A Normal-type event (severity score 1, strictly below the default
threshold 2 of `sinkNoFilters`). -/
def normalPodEvent : Event :=
  { «Type» := "Normal", Namespace := "default", Name := "pod-2", Reason := "Started",
    LastTimestamp := "ts", Message := "m", InvolvedObject := { Kind := "Pod" } }

/-- C4 (counterexample): invoking `Ding` directly on an event whose severity
score (1) is strictly below the configured level (2) still attempts the HTTP
delivery - `Ding` contains no severity check. -/
theorem dingIgnoresSeverityCounterexample :
    getLevel normalPodEvent.Type < sinkNoFilters.Level ∧
    attemptsPost (ding sinkNoFilters normalPodEvent (PostResult.success 200)) = true := by
  decide

/-- C4 (amended): the per-event deliver routine `Ding` applies only the
namespace and kind filters - it performs no severity check of its own, so it
attempts delivery exactly when those two filters pass, regardless of the
event's severity score and of `config.Level`; severity gating happens only in
the controller's outer `isEventLevelDangerous` check. -/
theorem dingFiltersNamespaceAndKindOnly (d : DingTalkSink) (e : Event) (post : PostResult) :
    attemptsPost (ding d e post) =
      (!allowSkip d.Namespaces e.Namespace && !allowSkip d.Kinds e.InvolvedObject.Kind) :=
  attemptsPost_ding d e post

/-! ## Claim C5 -/

/-- The behaviour the claim describes for the allow-list checks: drop exactly
when the allow-list is non-empty and the value matches no entry. -/
def allowDropsClaimed (allow : Option (List String)) (value : String) : Bool :=
  let entries := allow.getD []
  !entries.isEmpty && !(entries.any (fun entry => entry == value))

/-- A sink whose namespace allow-list is a non-nil empty slice. -/
def sinkEmptyNamespaceList : DingTalkSink :=
  { Endpoint := "oapi.dingtalk.com/robot/send", Namespaces := some [],
    Kinds := none, Token := "tok123", Level := 2, Labels := [] }

/-- C5 (counterexample): a non-nil but empty allow-list is empty, yet the
check in `Ding` drops every event (the `!= nil` test passes and the loop
never clears `skip`), where the claim says an empty allow-list never drops;
with such a namespace allow-list `Ding` attempts no delivery. -/
theorem emptyAllowListStillDropsCounterexample :
    allowSkip (some []) "default" = true ∧
    allowDropsClaimed (some []) "default" = false ∧
    attemptsPost (ding sinkEmptyNamespaceList warningPodEvent (PostResult.success 200)) = false := by
  decide

/-- C5 (amended): the namespace (resp. kind) check drops the event exactly
when the configured allow-list is non-nil (present) and the event's value is
not exactly, case-sensitively equal to some entry; a nil allow-list never
drops any event (and hence a non-nil empty allow-list drops every event). -/
theorem allowSkipIffPresentAndNoMatch (allow : Option (List String)) (value : String) :
    allowSkip allow value = true ↔
      ∃ entries, allow = some entries ∧ value ∉ entries := by
  cases allow with
  | none => simp [allowSkip]
  | some entries =>
    simp only [allowSkip, Bool.not_eq_true', List.any_eq_false, beq_iff_eq,
      Option.some.injEq]
    constructor
    · intro h
      exact ⟨entries, rfl, fun hmem => h value hmem rfl⟩
    · rintro ⟨entries2, rfl, hmem⟩ x hx rfl
      exact hmem hx

/-! ## Claims C3 and C6: the batch loop -/

/-- With every POST answered by status 200, no `Ding` call panics and the
batch loop processes every event, so `ExportEvents` is the per-event loop
body mapped over the batch. -/
theorem exportEvents_eq_map (d : DingTalkSink) (batch : List Event)
    (post : Event → PostResult) (hok : ∀ e, post e = PostResult.success 200) :
    ExportEvents d batch post = batch.map (fun e => processEvent d e (post e)) := by
  induction batch with
  | nil => rfl
  | cons e rest ih =>
    have h1 : resultPanicked (ding d e (post e)) = false := by
      rw [hok e]
      exact ding_success_not_panicked d e
    by_cases hs : isEventLevelDangerous d e.Type
    · simp [ExportEvents, hs, h1, ih, processEvent]
    · simp [ExportEvents, hs, ih, processEvent]

/-- The loop body sleeps exactly when the severity gate passes. -/
theorem processEvent_slept (d : DingTalkSink) (e : Event) (post : PostResult) :
    (processEvent d e post).slept = isEventLevelDangerous d e.Type := by
  unfold processEvent
  by_cases hs : isEventLevelDangerous d e.Type <;> simp [hs]

/-- The loop body attempts a delivery exactly when all three filters pass. -/
theorem processEvent_deliveryAttempted (d : DingTalkSink) (e : Event) (post : PostResult) :
    deliveryAttempted (processEvent d e post) =
      (!allowSkip d.Namespaces e.Namespace && !allowSkip d.Kinds e.InvolvedObject.Kind &&
        isEventLevelDangerous d e.Type) := by
  unfold processEvent deliveryAttempted
  by_cases hs : isEventLevelDangerous d e.Type
  · simp [hs, attemptsPost_ding]
  · simp [hs]

/-- C3: in a batch run of `ExportEvents` (with deliveries answered by status
200, so that no C1 panic cuts the loop short) each event is processed by the
per-event loop body, and that body attempts an outbound HTTP delivery if and
only if, in the same pass, the event's namespace passes the namespace
allow-list, its involved-object kind passes the kind allow-list, and its
severity score is at least the configured level. -/
theorem deliveryAttemptedIffAllFiltersPass (d : DingTalkSink) (batch : List Event)
    (post : Event → PostResult) (hok : ∀ e, post e = PostResult.success 200) :
    ExportEvents d batch post = batch.map (fun e => processEvent d e (post e)) ∧
    ∀ (e : Event) (p : PostResult),
      deliveryAttempted (processEvent d e p) =
        (!allowSkip d.Namespaces e.Namespace && !allowSkip d.Kinds e.InvolvedObject.Kind &&
          isEventLevelDangerous d e.Type) :=
  ⟨exportEvents_eq_map d batch post hok,
    fun e p => processEvent_deliveryAttempted d e p⟩

/-- C3 (witness): instantiated on the no-filter sink, a Warning Pod event and
an all-200 transport. -/
theorem deliveryAttemptedIffAllFiltersPassWitness :
    ExportEvents sinkNoFilters [warningPodEvent] (fun _ => PostResult.success 200) =
      [warningPodEvent].map (fun e => processEvent sinkNoFilters e (PostResult.success 200)) ∧
    deliveryAttempted (processEvent sinkNoFilters warningPodEvent (PostResult.success 200)) =
      (!allowSkip sinkNoFilters.Namespaces warningPodEvent.Namespace &&
        !allowSkip sinkNoFilters.Kinds warningPodEvent.InvolvedObject.Kind &&
        isEventLevelDangerous sinkNoFilters warningPodEvent.Type) := by
  have h := deliveryAttemptedIffAllFiltersPass sinkNoFilters [warningPodEvent]
    (fun _ => PostResult.success 200) (fun _ => rfl)
  exact ⟨h.1, h.2 warningPodEvent (PostResult.success 200)⟩

/-- A sink that filters on namespace `ns-a` and lets every severity through. -/
def sinkNamespaceFiltered : DingTalkSink :=
  { Endpoint := "oapi.dingtalk.com/robot/send", Namespaces := some ["ns-a"],
    Kinds := none, Token := "tok123", Level := 0, Labels := [] }

/-- A Warning event in namespace `ns-b`. -/
def otherNamespaceEvent : Event :=
  { «Type» := "Warning", Namespace := "ns-b", Name := "pod-3", Reason := "Failed",
    LastTimestamp := "ts", Message := "m", InvolvedObject := { Kind := "Pod" } }

/-- C6 (counterexample): an event that passes the severity gate but is then
dropped by the namespace filter delivers no notification yet still incurs the
50ms sleep, so the number of sleeps in a batch (1) differs from the number of
delivered notifications (0). -/
theorem sleepWithoutDeliveryCounterexample :
    countSleeps (ExportEvents sinkNamespaceFiltered [otherNamespaceEvent]
      (fun _ => PostResult.success 200)) = 1 ∧
    countDeliveries (ExportEvents sinkNamespaceFiltered [otherNamespaceEvent]
      (fun _ => PostResult.success 200)) = 0 := by
  decide

/-- C6 (amended): in a batch run of `ExportEvents` (with deliveries answered
by status 200, so that no C1 panic cuts the loop short) the fixed 50ms sleep
occurs after each event that passes the controller's severity gate, whether
or not a notification is delivered: the number of sleeps equals the number of
severity-passing events in the batch, and the number of delivery attempts is
at most the number of sleeps. -/
theorem sleepCountEqualsSeverityGateCount (d : DingTalkSink) (batch : List Event)
    (post : Event → PostResult) (hok : ∀ e, post e = PostResult.success 200) :
    countSleeps (ExportEvents d batch post) =
      batch.countP (fun e => isEventLevelDangerous d e.Type) ∧
    countDeliveries (ExportEvents d batch post) ≤ countSleeps (ExportEvents d batch post) := by
  rw [exportEvents_eq_map d batch post hok]
  constructor
  · unfold countSleeps
    rw [List.countP_map]
    exact List.countP_congr (fun e _ => by simp [Function.comp, processEvent_slept])
  · unfold countSleeps countDeliveries
    rw [List.countP_map, List.countP_map]
    refine List.countP_mono_left (fun e _ hdel => ?_)
    simp only [Function.comp] at hdel ⊢
    rw [processEvent_slept]
    rw [processEvent_deliveryAttempted] at hdel
    exact (Bool.and_eq_true _ _ |>.mp hdel).2

/-- C6 (witness): instantiated on the namespace-filtered sink and the batch
of one `ns-b` event. -/
theorem sleepCountEqualsSeverityGateCountWitness :
    countSleeps (ExportEvents sinkNamespaceFiltered [otherNamespaceEvent]
      (fun _ => PostResult.success 200)) =
      [otherNamespaceEvent].countP
        (fun e => isEventLevelDangerous sinkNamespaceFiltered e.Type) ∧
    countDeliveries (ExportEvents sinkNamespaceFiltered [otherNamespaceEvent]
      (fun _ => PostResult.success 200)) ≤
      countSleeps (ExportEvents sinkNamespaceFiltered [otherNamespaceEvent]
        (fun _ => PostResult.success 200)) :=
  sleepCountEqualsSeverityGateCount sinkNamespaceFiltered [otherNamespaceEvent]
    (fun _ => PostResult.success 200) (fun _ => rfl)

/-! ## Claim C9: the wire call -/

/-- A `%s` verb consumes the next argument. -/
theorem goFmt_verb (rest : List Char) (a : String) (args : List String) :
    goFmt ('%' :: 's' :: rest) (a :: args) = a.data ++ goFmt rest args := rfl

/-- The URL `fmt.Sprintf` in `Ding` is plain concatenation of scheme,
endpoint, query key and token. -/
theorem goSprintf_url (a b : String) :
    goSprintf "https://%s?access_token=%s" [a, b] =
      "https://" ++ a ++ "?access_token=" ++ b := by
  apply string_eq_of_data_eq
  show goFmt ("https://%s?access_token=%s").data [a, b] = _
  have hd : ("https://%s?access_token=%s" : String).data =
      "https://".data ++ ('%' :: 's' :: ("?access_token=".data ++ ['%', 's'])) := rfl
  rw [hd, goFmt_append_no_percent _ _ _ (by decide), goFmt_verb,
    goFmt_append_no_percent _ _ _ (by decide), goFmt_verb]
  show _ = (("https://" ++ a ++ "?access_token=") ++ b).data
  simp [String.data_append, goFmt]

/-- Marshalling a message whose type is `text` yields the claimed JSON object
around the escaped content. -/
theorem marshal_text_msg (m : DingTalkMsg) (h : m.MsgType = "text") :
    marshalDingTalkMsg m =
      "\x7b\"msgtype\":\"text\",\"text\":\x7b\"content\":" ++
        goJsonString m.Text.Content ++ "\x7d\x7d" := by
  rw [marshalDingTalkMsg, h]
  rfl

/-- The request `Ding` builds for a sink and an event (the zeta-reduced form
of the `req` let-binding in `ding`). -/
def dingRequest (d : DingTalkSink) (e : Event) : HttpRequest :=
  { url := goSprintf "https://%s?access_token=%s" [d.Endpoint, d.Token],
    contentType := CONTENT_TYPE_JSON,
    body := marshalDingTalkMsg (createMsgFromEvent d.Labels e) }

/-- When `ding` posts, the request is the one built from the sink's endpoint,
token and the marshalled message. -/
theorem ding_posted_req (d : DingTalkSink) (e : Event) (post : PostResult)
    (req : HttpRequest) (outcome : PostOutcome)
    (h : ding d e post = DingResult.posted req outcome) :
    req = dingRequest d e := by
  unfold ding at h
  by_cases h1 : allowSkip d.Namespaces e.Namespace
  · simp [h1] at h
  · by_cases h2 : allowSkip d.Kinds e.InvolvedObject.Kind
    · simp [h1, h2] at h
    · simp only [h1, h2, Bool.false_eq_true, if_false] at h
      cases post with
      | failure m =>
        simp only [DingResult.posted.injEq] at h
        exact h.1.symm
      | success s =>
        by_cases hs : s = 200
        · simp only [hs, ne_eq, not_true_eq_false, if_false, ite_false,
            DingResult.posted.injEq, reduceIte] at h
          exact h.1.symm
        · simp only [if_pos (by exact hs : s ≠ 200), DingResult.posted.injEq] at h
          exact h.1.symm

/-- C9: every `Ding` call that reaches the transport issues exactly one POST
(the `posted` result carries the single request), whose URL is
`https://{Endpoint}?access_token={Token}`, whose content type is
`application/json`, and whose body is the JSON object with the fixed `text`
message-type discriminator and the rendered message as content; the message
type is always the string `text`. -/
theorem postedRequestShape (d : DingTalkSink) (e : Event) (post : PostResult)
    (req : HttpRequest) (outcome : PostOutcome)
    (h : ding d e post = DingResult.posted req outcome) :
    req.url = "https://" ++ d.Endpoint ++ "?access_token=" ++ d.Token ∧
    req.contentType = "application/json" ∧
    req.body = "\x7b\"msgtype\":\"text\",\"text\":\x7b\"content\":" ++
      goJsonString (createMsgFromEvent d.Labels e).Text.Content ++ "\x7d\x7d" ∧
    (createMsgFromEvent d.Labels e).MsgType = "text" := by
  rw [ding_posted_req d e post req outcome h]
  refine ⟨goSprintf_url d.Endpoint d.Token, rfl, ?_, rfl⟩
  exact marshal_text_msg (createMsgFromEvent d.Labels e) rfl

/-- C9 (witness): the no-filter sink and the Warning Pod event with a
successful transport produce a posted request with the concrete URL and the
JSON content type. -/
theorem postedRequestShapeWitness :
    (ding sinkNoFilters warningPodEvent (PostResult.success 200) =
      DingResult.posted (dingRequest sinkNoFilters warningPodEvent)
        PostOutcome.returnedNormally) ∧
    (dingRequest sinkNoFilters warningPodEvent).url =
      "https://oapi.dingtalk.com/robot/send?access_token=tok123" := by
  refine ⟨rfl, ?_⟩
  have h := postedRequestShape sinkNoFilters warningPodEvent (PostResult.success 200)
    (dingRequest sinkNoFilters warningPodEvent) PostOutcome.returnedNormally rfl
  exact h.1.trans (by decide)

/-! ## Claim C10 -/

/-- C10: when the construction URI carries a `level` value that is neither
`Warning` nor `Normal` and construction returns a sink, the sink's severity
threshold is 0, and the controller's severity gate then accepts every event
type (including unknown types whose score is 0). -/
theorem unknownLevelGivesZeroThreshold (host path : String)
    (opts : String → List String) (v : String) (rest : List String)
    (d : DingTalkSink) (hlevel : opts "level" = v :: rest)
    (hw : v ≠ "Warning") (hn : v ≠ "Normal")
    (hok : NewDingTalkSink host path opts = ConstructResult.ok d) :
    d.Level = 0 ∧ ∀ t, isEventLevelDangerous d t = true := by
  have hv : getLevel v = 0 := by simp [getLevel, hw, hn]
  rcases htok : opts "access_token" with _ | ⟨token, toks⟩
  · simp [NewDingTalkSink, htok] at hok
  · rcases hns : getValues (opts "namespaces") with _ | ns
    · simp [NewDingTalkSink, htok, hns] at hok
    · rcases hks : getValues (opts "kinds") with _ | ks
      · simp [NewDingTalkSink, htok, hns, hks] at hok
      · simp only [NewDingTalkSink, htok, hlevel, hns, hks,
          ConstructResult.ok.injEq] at hok
        have hlev : d.Level = 0 := by rw [← hok, hv]
        refine ⟨hlev, fun t => ?_⟩
        simp only [isEventLevelDangerous, hlev]
        rw [if_pos (getLevel_nonneg t)]

/-- Construction options with an unrecognized `level` value, and empty-string
`namespaces`/`kinds` (so that `getValues` does not panic). -/
def optsCustomLevel : String → List String :=
  fun key =>
    if key = "access_token" then ["tok123"]
    else if key = "level" then ["Debug"]
    else if key = "namespaces" then [""]
    else if key = "kinds" then [""]
    else []

/-- The sink `optsCustomLevel` constructs. -/
def sinkCustomLevel : DingTalkSink :=
  { Endpoint := "oapi.dingtalk.com/robot/send", Namespaces := none, Kinds := none,
    Token := "tok123", Level := 0, Labels := [] }

/-- C10 (witness): `level=Debug` yields threshold 0 and an event of unknown
type (score 0) passes the severity gate. -/
theorem unknownLevelGivesZeroThresholdWitness :
    sinkCustomLevel.Level = 0 ∧ isEventLevelDangerous sinkCustomLevel "SomeUnknownType" = true := by
  have h := unknownLevelGivesZeroThreshold "oapi.dingtalk.com" "/robot/send"
    optsCustomLevel "Debug" [] sinkCustomLevel rfl (by decide) (by decide) (by decide)
  exact ⟨h.1, h.2 "SomeUnknownType"⟩

end DingTalk
